import Mathlib

/-!
Verification of the mnist package (kortschak/mnist, mnist.go).

The Go source is shallowly embedded:

* Bytes are `Nat` (values `0..255` where it matters, with explicit
  hypotheses); decompressed file contents are `List Nat`.  The gzip layer is
  abstracted away: the decoders take the decompressed byte stream, and a
  file-open or gzip failure is the `none` case of an `Option (List Nat)`
  input, mirroring the early `return err` branches of `readImages` and
  `readLabels`.
* Go `int32` values are `Int` together with the wrap-around function
  `wrap32`; `binary.Read(z, binary.BigEndian, &v)` of an `int32` is
  `readInt32` (4 bytes, big-endian, signed interpretation).
* `io.ReadFull` into a freshly allocated `n`-byte buffer is `readFull`:
  the buffer always ends up with length `n` (partial reads leave the
  zero-initialised tail), and a `Bool` records whether the read was short.
* In-place mutation of the receiver `*Set` becomes explicit state passing:
  each decoder returns the updated `Set` together with `Option Err`, and
  the point at which each field is written matches the Go statement order.
* The `init` cache check and download loop is modelled over an abstract
  file-system/network outcome: each OS or HTTP call's result is a
  parameter (`FileState`, `Option HttpResponse`), the MD5 digest is an
  abstract function `List Nat → List Nat`, and `fmt.Sprintf "%x"` hex
  rendering is implemented concretely over ASCII codes (`hexLower`).
  `log.Fatal` / `os.Exit` / a runtime panic are terminal outcomes of the
  model (`CheckOutcome.fatal`, `FetchOutcome`, `Err.negativeMake`), not
  returned errors.
-/

set_option maxRecDepth 8000

namespace Mnist

/-- Signed interpretation of a 32-bit word `n < 2^32`, as Go reads an
`int32` from 4 raw bytes. -/
def toInt32 (n : Nat) : Int :=
  if n < 2 ^ 31 then (n : Int) else (n : Int) - 2 ^ 32

/-- Reduction of an integer into the signed 32-bit range, the result of a
Go `int32` arithmetic operation (Go integer arithmetic wraps around). -/
def wrap32 (x : Int) : Int :=
  (x + 2 ^ 31) % 2 ^ 32 - 2 ^ 31

/-- The effect of `binary.Read(z, binary.BigEndian, &v)` for `v : int32`:
consume 4 bytes big-endian, or fail (io.EOF / io.ErrUnexpectedEOF) when
fewer than 4 bytes remain.  On failure the destination is not written,
which the callers below reflect by returning the state unchanged. -/
def readInt32 : List Nat → Option (Int × List Nat)
  | b0 :: b1 :: b2 :: b3 :: rest =>
      some (toInt32 (b0 * 2 ^ 24 + b1 * 2 ^ 16 + b2 * 2 ^ 8 + b3), rest)
  | _ => none

/-- Big-endian encoding of `n < 2^32` into 4 bytes; used to describe input
streams in the theorems. -/
def be32 (n : Nat) : List Nat :=
  [n / 2 ^ 24 % 256, n / 2 ^ 16 % 256, n / 2 ^ 8 % 256, n % 256]

/-- The effect of `io.ReadFull(z, buf)` for a freshly made (zeroed) buffer
`buf` of length `n`: the first `min n data.length` bytes are filled from
the stream, the rest stay zero, and the `Bool` is true exactly when fewer
than `n` bytes were available (io.EOF / io.ErrUnexpectedEOF). -/
def readFull (n : Nat) (data : List Nat) : List Nat × Bool :=
  if data.length < n then (data ++ List.replicate (n - data.length) 0, true)
  else (data.take n, false)

/-- Error outcomes of the decoding pipeline.  `ioError` is a file open or
gzip-reader failure; `shortHeader` is a failed `binary.Read` of a header
int32; `badImageMagic` / `badLabelMagic` are the `fmt.Errorf("invalid
magic number for ...: %x", magic)` returns and carry the offending value;
`countMismatch` is `errors.New("mismatched number of labels and images")`;
`truncated` is the short-read error out of `io.ReadFull`;
`negativeMake` marks the runtime panic of `make([]byte, n)` with a
negative `int32` length. -/
inductive Err where
  | ioError
  | shortHeader
  | badImageMagic (m : Int)
  | badLabelMagic (m : Int)
  | countMismatch
  | truncated
  | negativeMake
deriving DecidableEq

/-- The magic number of a label file, `xLAB int32 = 0x00000801`. -/
def xLAB : Int := 0x00000801

/-- The magic number of an image file, `xIMG int32 = 0x00000803`. -/
def xIMG : Int := 0x00000803

/-- The Go `Set` struct.  `count`, `rows`, `cols` are `int32` (held as
`Int`, always produced through `toInt32`/`wrap32`); `matrix` and `labels`
are the byte slices.  The zero value `{}` has zero counts and nil
slices. -/
structure Set where
  count : Int := 0
  rows : Int := 0
  cols : Int := 0
  matrix : List Nat := []
  labels : List Nat := []
deriving DecidableEq

/-- Go slice expression `l[a:b]` as a list (the in-bounds case; an
out-of-bounds slice panics in Go and is never reached by the theorems,
which carry the bounds as hypotheses). -/
def goSlice (l : List Nat) (a b : Nat) : List Nat :=
  (l.drop a).take (b - a)

/-- The method `(s *Set) Len() int`. -/
def Set.Len (s : Set) : Int := s.count

/-- The method `(s *Set) Rows() int`. -/
def Set.Rows (s : Set) : Int := s.rows

/-- The method `(s *Set) Cols() int`. -/
def Set.Cols (s : Set) : Int := s.cols

/-- The local `stride := int(s.rows * s.cols)` of `Index`: an `int32`
multiplication (wrapping) widened to `int`. -/
def Set.stride (s : Set) : Int := wrap32 (s.rows * s.cols)

/-- The method `(s *Set) Index(i int) (label byte, image []byte)`:
`return s.labels[i], s.matrix[i*stride : (i+1)*stride]`.  The label read
is modelled with `List.getD` (Go panics out of range; the theorems only
use in-range `i`). -/
def Set.Index (s : Set) (i : Nat) : Nat × List Nat :=
  (s.labels.getD i 0,
   goSlice s.matrix (i * s.stride.toNat) ((i + 1) * s.stride.toNat))

/-- The method `(s *Set) readImages(file string) error`, from the
decompressed stream onward (`none` = open/gzip failure).  Reads magic,
then count, rows, cols in order (each assigned to the struct as soon as it
is read), then allocates `make([]byte, s.count*s.rows*s.cols)` — an
`int32` product, which wraps, and panics when negative — and fills it with
`io.ReadFull`. -/
def Set.readImages (s : Set) (stream : Option (List Nat)) : Set × Option Err :=
  match stream with
  | none => (s, some .ioError)
  | some data =>
    match readInt32 data with
    | none => (s, some .shortHeader)
    | some (magic, r1) =>
      if magic ≠ xIMG then (s, some (.badImageMagic magic)) else
      match readInt32 r1 with
      | none => (s, some .shortHeader)
      | some (c, r2) =>
        let s1 : Set := { s with count := c }
        match readInt32 r2 with
        | none => (s1, some .shortHeader)
        | some (r, r3) =>
          let s2 : Set := { s1 with rows := r }
          match readInt32 r3 with
          | none => (s2, some .shortHeader)
          | some (k, r4) =>
            let s3 : Set := { s2 with cols := k }
            let n : Int := wrap32 (wrap32 (s3.count * s3.rows) * s3.cols)
            if n < 0 then (s3, some .negativeMake)
            else
              let res := readFull n.toNat r4
              ({ s3 with matrix := res.1 },
               if res.2 then some .truncated else none)

/-- The method `(s *Set) readLabels(file string) error`, from the
decompressed stream onward.  Reads magic, then a local `count`, compares
it with `s.count` (set earlier by `readImages`), then allocates
`make([]byte, s.count)` and fills it with `io.ReadFull`. -/
def Set.readLabels (s : Set) (stream : Option (List Nat)) : Set × Option Err :=
  match stream with
  | none => (s, some .ioError)
  | some data =>
    match readInt32 data with
    | none => (s, some .shortHeader)
    | some (magic, r1) =>
      if magic ≠ xLAB then (s, some (.badLabelMagic magic)) else
      match readInt32 r1 with
      | none => (s, some .shortHeader)
      | some (c, r2) =>
        if c ≠ s.count then (s, some .countMismatch)
        else if s.count < 0 then (s, some .negativeMake)
        else
          let res := readFull s.count.toNat r2
          ({ s with labels := res.1 },
           if res.2 then some .truncated else none)

/-- The method `(s *Set) read(images, labels string) error`: `readImages`
then, only on success, `readLabels`. -/
def Set.read (s : Set) (imgStream labStream : Option (List Nat)) :
    Set × Option Err :=
  match s.readImages imgStream with
  | (s1, some e) => (s1, some e)
  | (s1, none) => s1.readLabels labStream

/-- The Dataset invariants of a fully populated set (spec §3): counts are
non-negative `int32` values, the per-image stride fits `int32`, the pixel
storage has exactly `count*rows*cols` bytes and the label storage exactly
`count` bytes. -/
def Set.WellFormed (s : Set) : Prop :=
  0 ≤ s.count ∧ 0 ≤ s.rows ∧ 0 ≤ s.cols ∧ s.rows * s.cols < 2 ^ 31 ∧
  s.matrix.length = s.count.toNat * (s.rows.toNat * s.cols.toNat) ∧
  s.labels.length = s.count.toNat

/-- Outcome of one OS interaction sequence in the cache check of `init`:
whether `os.Open` succeeded, whether `f.Stat()` succeeded and what size it
reported, and the result of reading the content through `io.Copy` into the
hash (`none` = a read error mid-copy). -/
structure FileState where
  openOk : Bool
  statOk : Bool
  size : Int
  content : Option (List Nat)

/-- Result of the cache check for one table entry: `valid` is the
`continue` branch (file kept, no download), `invalid` falls through to the
download, `fatal` is `isNil` firing on a copy error (`log.Fatal`, process
exit). -/
inductive CheckOutcome where
  | valid
  | invalid
  | fatal
deriving DecidableEq

/-- One hex digit (ASCII code) as produced by `fmt.Sprintf("%x", ...)`:
lowercase. -/
def hexDigit (k : Nat) : Nat :=
  if k < 10 then 48 + k else 87 + k

/-- Two lowercase hex digits (ASCII codes) of one byte. -/
def byteHex (b : Nat) : List Nat :=
  [hexDigit (b / 16), hexDigit (b % 16)]

/-- The string `fmt.Sprintf("%x", s)` over a byte slice, as ASCII codes:
lowercase hex, two digits per byte. -/
def hexLower (bs : List Nat) : List Nat :=
  bs.flatMap byteHex

/-- ASCII lower-casing of one code point, used to express case-insensitive
hex comparison. -/
def lowerAscii (c : Nat) : Nat :=
  if 65 ≤ c ∧ c ≤ 90 then c + 32 else c

/-- The cache-validation step of `init` (lines 140-153) for one table
entry, over an abstract MD5 `digest` (16 raw digest bytes): open the local
file; on success stat it and compare the size with the expected length; on
success hash the content, pass any copy error to `isNil` (fatal), and keep
the file only when the copied byte count and the lowercase hex digest both
match the table entry. -/
def checkCache (digest : List Nat → List Nat) (fs : FileState)
    (expectedLength : Int) (expectedHash : List Nat) : CheckOutcome :=
  if fs.openOk then
    if fs.statOk ∧ fs.size = expectedLength then
      match fs.content with
      | none => .fatal
      | some c =>
        if (c.length : Int) = expectedLength ∧ hexLower (digest c) = expectedHash
        then .valid else .invalid
    else .invalid
  else .invalid

/-- Result of `cl.Get`: `none` when the request itself errored; otherwise
the HTTP status, the body bytes that can be read, and whether reading the
body errors after them. -/
structure HttpResponse where
  status : Int
  body : List Nat
  bodyErr : Bool

/-- Outcome of the download step for one table entry.  All failure
outcomes are fatal in `init` (`isNil` / `log.Fatalf`); `lengthMismatch`
records the copied and expected byte counts of the
`"length mismatch %d != %d"` message. -/
inductive FetchOutcome where
  | transportFatal
  | createFatal
  | lengthMismatch (n expected : Int)
  | copyFatal
  | success
deriving DecidableEq

/-- The download step of `init` (lines 157-171) for one table entry:
`cl.Get` (error → `isNil` fatal; the HTTP status code is never examined),
`os.Create` (error → fatal), `io.Copy` of the body into the file, the
byte-count check against the expected length (checked before the copy
error), then `isNil` on the copy error. -/
def fetch (resp : Option HttpResponse) (createOk : Bool)
    (expectedLength : Int) : FetchOutcome :=
  match resp with
  | none => .transportFatal
  | some r =>
    if createOk then
      if (r.body.length : Int) ≠ expectedLength then
        .lengthMismatch r.body.length expectedLength
      else if r.bodyErr then .copyFatal
      else .success
    else .createFatal

/-! ### Helper lemmas (shared) -/

theorem toInt32_small {n : Nat} (h : n < 2 ^ 31) : toInt32 n = (n : Int) := by
  unfold toInt32
  rw [if_pos h]

theorem readInt32_be32 (n : Nat) (rest : List Nat) (h : n < 2 ^ 32) :
    readInt32 (be32 n ++ rest) = some (toInt32 n, rest) := by
  have h4 : n / 2 ^ 24 % 256 * 2 ^ 24 + n / 2 ^ 16 % 256 * 2 ^ 16 +
      n / 2 ^ 8 % 256 * 2 ^ 8 + n % 256 = n := by omega
  simp only [be32, List.cons_append, List.nil_append, readInt32, h4]

theorem wrap32_small {x : Int} (h0 : 0 ≤ x) (h1 : x < 2 ^ 31) : wrap32 x = x := by
  unfold wrap32
  omega

theorem wrap32_add_mul (x t : Int) : wrap32 (x + 2 ^ 32 * t) = wrap32 x := by
  unfold wrap32
  omega

theorem wrap32_mul_left (a b : Int) : wrap32 (wrap32 a * b) = wrap32 (a * b) := by
  obtain ⟨t, ht⟩ : ∃ t, wrap32 a = a + 2 ^ 32 * t :=
    ⟨-((a + 2 ^ 31) / 2 ^ 32), by unfold wrap32; omega⟩
  rw [ht, show (a + 2 ^ 32 * t) * b = a * b + 2 ^ 32 * (t * b) from by ring,
    wrap32_add_mul]

theorem readFull_fst_length (n : Nat) (data : List Nat) :
    (readFull n data).1.length = n := by
  unfold readFull
  split
  · simp only [List.length_append, List.length_replicate]
    omega
  · simp only [List.length_take]
    omega

theorem readFull_of_le {n : Nat} {data : List Nat} (h : n ≤ data.length) :
    readFull n data = (data.take n, false) := by
  unfold readFull
  rw [if_neg (by omega)]

theorem readFull_of_lt {n : Nat} {data : List Nat} (h : data.length < n) :
    readFull n data = (data ++ List.replicate (n - data.length) 0, true) := by
  unfold readFull
  rw [if_pos h]

theorem readImages_badMagic (s : Set) (m : Nat) (rest : List Nat)
    (hm : m < 2 ^ 32) (hne : toInt32 m ≠ xIMG) :
    s.readImages (some (be32 m ++ rest)) = (s, some (.badImageMagic (toInt32 m))) := by
  simp only [Set.readImages]
  rw [readInt32_be32 _ _ hm]
  simp [hne]

theorem readLabels_badMagic (s : Set) (m : Nat) (rest : List Nat)
    (hm : m < 2 ^ 32) (hne : toInt32 m ≠ xLAB) :
    s.readLabels (some (be32 m ++ rest)) = (s, some (.badLabelMagic (toInt32 m))) := by
  simp only [Set.readLabels]
  rw [readInt32_be32 _ _ hm]
  simp [hne]

theorem readImages_header (s : Set) (c r k : Nat) (payload : List Nat)
    (hc : c < 2 ^ 32) (hr : r < 2 ^ 32) (hk : k < 2 ^ 32) :
    s.readImages (some (be32 0x00000803 ++ (be32 c ++ (be32 r ++ (be32 k ++ payload))))) =
      (if wrap32 (wrap32 (toInt32 c * toInt32 r) * toInt32 k) < 0 then
        ({ s with
            count := toInt32 c,
            rows := toInt32 r,
            cols := toInt32 k },
         some .negativeMake)
       else
        ({ s with
            count := toInt32 c,
            rows := toInt32 r,
            cols := toInt32 k,
            matrix := (readFull (wrap32 (wrap32 (toInt32 c * toInt32 r) * toInt32 k)).toNat payload).1 },
         if (readFull (wrap32 (wrap32 (toInt32 c * toInt32 r) * toInt32 k)).toNat payload).2 then
           some .truncated
         else none)) := by
  simp only [Set.readImages]
  rw [readInt32_be32 0x00000803 (be32 c ++ (be32 r ++ (be32 k ++ payload))) (by norm_num)]
  simp only [show toInt32 0x00000803 = xIMG from by decide, ne_eq,
    not_true_eq_false, if_false, ite_false]
  rw [readInt32_be32 c (be32 r ++ (be32 k ++ payload)) hc]
  simp only []
  rw [readInt32_be32 r (be32 k ++ payload) hr]
  simp only []
  rw [readInt32_be32 k payload hk]

theorem readLabels_header (s : Set) (c : Nat) (rest : List Nat) (hc : c < 2 ^ 32) :
    s.readLabels (some (be32 0x00000801 ++ (be32 c ++ rest))) =
      (if toInt32 c ≠ s.count then (s, some .countMismatch)
       else if s.count < 0 then (s, some .negativeMake)
       else ({ s with labels := (readFull s.count.toNat rest).1 },
             if (readFull s.count.toNat rest).2 then some .truncated else none)) := by
  simp only [Set.readLabels]
  rw [readInt32_be32 0x00000801 (be32 c ++ rest) (by norm_num)]
  simp only [show toInt32 0x00000801 = xLAB from by decide, ne_eq,
    not_true_eq_false, if_false, ite_false]
  rw [readInt32_be32 c rest hc]

theorem read_of_images_ok {s s1 : Set} {imgStream labStream : Option (List Nat)}
    (h : s.readImages imgStream = (s1, none)) :
    s.read imgStream labStream = s1.readLabels labStream := by
  simp only [Set.read, h]

theorem wrap32_sub_dvd (x : Int) : (2 ^ 32 : Int) ∣ (wrap32 x - x) := by
  refine ⟨-((x + 2 ^ 31) / 2 ^ 32), ?_⟩
  unfold wrap32
  omega

theorem wrap32_lt (x : Int) : wrap32 x < 2 ^ 31 := by
  unfold wrap32
  omega

theorem wrap32_ge (x : Int) : -(2 ^ 31) ≤ wrap32 x := by
  unfold wrap32
  omega

theorem flatMap_chunks (k : Nat) :
    ∀ (n : Nat) (l : List Nat), l.length = n * k →
      ((List.range n).flatMap fun i => (l.drop (i * k)).take k) = l := by
  intro n
  induction n with
  | zero =>
    intro l h
    rw [Nat.zero_mul] at h
    rw [List.length_eq_zero] at h
    simp [h]
  | succ n ih =>
    intro l h
    rw [List.range_succ_eq_map, List.flatMap_cons, List.flatMap_map]
    have h0 : (l.drop (0 * k)).take k = l.take k := by
      rw [Nat.zero_mul, List.drop_zero]
    have hfun : (fun a => ((l.drop (Nat.succ a * k)).take k))
        = fun a => (((l.drop k).drop (a * k)).take k) := by
      funext a
      rw [List.drop_drop]
      congr 2
      rw [Nat.succ_mul]
      omega
    have hlen : (l.drop k).length = n * k := by
      rw [List.length_drop, h, Nat.succ_mul]
      omega
    calc (l.drop (0 * k)).take k
          ++ (List.range n).flatMap (fun a => (l.drop (Nat.succ a * k)).take k)
        = l.take k ++ (List.range n).flatMap fun a => ((l.drop k).drop (a * k)).take k := by
          rw [h0, hfun]
      _ = l.take k ++ l.drop k := by rw [ih (l.drop k) hlen]
      _ = l := List.take_append_drop k l

theorem stride_of_wellFormed {s : Set} (h : s.WellFormed) :
    s.stride.toNat = s.rows.toNat * s.cols.toNat := by
  obtain ⟨hc0, hr0, hk0, hrc, hm, hl⟩ := h
  unfold Set.stride
  rw [wrap32_small (mul_nonneg hr0 hk0) hrc]
  rw [show s.rows * s.cols = ((s.rows.toNat * s.cols.toNat : Nat) : Int) from by
    push_cast
    rw [Int.toNat_of_nonneg hr0, Int.toNat_of_nonneg hk0]]
  rw [Int.toNat_natCast]

theorem readImages_shaped_ok (s : Set) (c r k : Nat) (payload : List Nat)
    (hc : c < 2 ^ 31) (hr : r < 2 ^ 31) (hk : k < 2 ^ 31) (hp : c * r * k < 2 ^ 31)
    (hle : c * r * k ≤ payload.length) :
    s.readImages (some (be32 0x00000803 ++ (be32 c ++ (be32 r ++ (be32 k ++ payload))))) =
      ({ s with
          count := (c : Int),
          rows := (r : Int),
          cols := (k : Int),
          matrix := payload.take (c * r * k) }, none) := by
  have hc32 : c < 2 ^ 32 := by omega
  have hr32 : r < 2 ^ 32 := by omega
  have hk32 : k < 2 ^ 32 := by omega
  have hcast : toInt32 c * toInt32 r * toInt32 k = ((c * r * k : Nat) : Int) := by
    rw [toInt32_small hc, toInt32_small hr, toInt32_small hk]
    push_cast
    ring
  have hn : wrap32 (wrap32 (toInt32 c * toInt32 r) * toInt32 k) = ((c * r * k : Nat) : Int) := by
    rw [wrap32_mul_left, hcast, wrap32_small (Int.natCast_nonneg _) (by exact_mod_cast hp)]
  rw [readImages_header s c r k payload hc32 hr32 hk32, hn,
    if_neg (by exact not_lt.mpr (Int.natCast_nonneg _)), Int.toNat_natCast,
    readFull_of_le hle, toInt32_small hc, toInt32_small hr, toInt32_small hk]
  simp

/-! ### Claim theorems -/

/-- C8: decoding the label file `[00 00 08 01][00 00 00 02][05][09]` and the
image file `[00 00 08 03][00 00 00 02][00 00 00 01][00 00 00 01][10][20]`
succeeds and yields a dataset with length 2, rows 1, cols 1, labels [5,9],
`at(0) = (5, [0x10])` and `at(1) = (9, [0x20])`. -/
theorem C8_end_to_end :
    (Set.read {} (some [0x00, 0x00, 0x08, 0x03, 0x00, 0x00, 0x00, 0x02,
        0x00, 0x00, 0x00, 0x01, 0x00, 0x00, 0x00, 0x01, 0x10, 0x20])
      (some [0x00, 0x00, 0x08, 0x01, 0x00, 0x00, 0x00, 0x02, 0x05, 0x09]))
      = ({ count := 2, rows := 1, cols := 1, matrix := [0x10, 0x20],
           labels := [5, 9] }, none) ∧
    ({ count := 2, rows := 1, cols := 1, matrix := [0x10, 0x20],
       labels := [5, 9] } : Set).Len = 2 ∧
    ({ count := 2, rows := 1, cols := 1, matrix := [0x10, 0x20],
       labels := [5, 9] } : Set).Rows = 1 ∧
    ({ count := 2, rows := 1, cols := 1, matrix := [0x10, 0x20],
       labels := [5, 9] } : Set).Cols = 1 ∧
    ({ count := 2, rows := 1, cols := 1, matrix := [0x10, 0x20],
       labels := [5, 9] } : Set).Index 0 = (5, [0x10]) ∧
    ({ count := 2, rows := 1, cols := 1, matrix := [0x10, 0x20],
       labels := [5, 9] } : Set).Index 1 = (9, [0x20]) := by
  decide

/-- C4: the image decoder fails with the magic-number `FormatError`
(carrying the offending value) whenever the first big-endian int32 of the
stream is not `0x00000803`; the label decoder likewise for `0x00000801`;
in particular each rejects the other kind's file. -/
theorem C4_magic_rejection :
    (∀ (s : Set) (m : Nat) (rest : List Nat), m < 2 ^ 32 → toInt32 m ≠ xIMG →
      s.readImages (some (be32 m ++ rest)) = (s, some (.badImageMagic (toInt32 m)))) ∧
    (∀ (s : Set) (m : Nat) (rest : List Nat), m < 2 ^ 32 → toInt32 m ≠ xLAB →
      s.readLabels (some (be32 m ++ rest)) = (s, some (.badLabelMagic (toInt32 m)))) ∧
    (∀ (s : Set) (rest : List Nat),
      s.readImages (some (be32 0x00000801 ++ rest)) = (s, some (.badImageMagic xLAB))) ∧
    (∀ (s : Set) (rest : List Nat),
      s.readLabels (some (be32 0x00000803 ++ rest)) = (s, some (.badLabelMagic xIMG))) := by
  refine ⟨readImages_badMagic, readLabels_badMagic, ?_, ?_⟩
  · intro s rest
    have h := readImages_badMagic s 0x00000801 rest (by norm_num) (by decide)
    rwa [show toInt32 0x00000801 = xLAB from by decide] at h
  · intro s rest
    have h := readLabels_badMagic s 0x00000803 rest (by norm_num) (by decide)
    rwa [show toInt32 0x00000803 = xIMG from by decide] at h

theorem C4_magic_rejection_witness :
    Set.readImages {} (some (be32 2049 ++ [])) =
      ({}, some (Err.badImageMagic (toInt32 2049))) ∧
    Set.readLabels {} (some (be32 2051 ++ [])) =
      ({}, some (Err.badLabelMagic (toInt32 2051))) :=
  ⟨C4_magic_rejection.1 {} 2049 [] (by norm_num) (by decide),
   C4_magic_rejection.2.1 {} 2051 [] (by norm_num) (by decide)⟩

/-- C5: when the image header has already been decoded into the set, a
label stream whose header parses but whose count differs from the image
count fails with the `InconsistentCountError`
("mismatched number of labels and images"), both for `readLabels` alone
and through `read` after a successful `readImages`. -/
theorem C5_count_mismatch :
    (∀ (s : Set) (c : Nat) (rest : List Nat), c < 2 ^ 32 → toInt32 c ≠ s.count →
      s.readLabels (some (be32 0x00000801 ++ (be32 c ++ rest))) =
        (s, some .countMismatch)) ∧
    (∀ (s s1 : Set) (imgStream : Option (List Nat)) (c : Nat) (rest : List Nat),
      c < 2 ^ 32 → s.readImages imgStream = (s1, none) → toInt32 c ≠ s1.count →
      s.read imgStream (some (be32 0x00000801 ++ (be32 c ++ rest))) =
        (s1, some .countMismatch)) := by
  constructor
  · intro s c rest hc hne
    rw [readLabels_header s c rest hc, if_pos hne]
  · intro s s1 imgStream c rest hc himg hne
    rw [read_of_images_ok himg, readLabels_header s1 c rest hc, if_pos hne]

/-- C3: after a successful image header parse (magic, count, rows, cols in
that order, big-endian) whose product does not overflow `int32`,
`readImages` returns a pixel payload of exactly `count*rows*cols` bytes
(trailing bytes silently ignored), and fails with the truncated-data error
when fewer payload bytes are available in the decompressed stream. -/
theorem C3_payload_exact :
    ∀ (s : Set) (c r k : Nat) (payload : List Nat),
      c < 2 ^ 31 → r < 2 ^ 31 → k < 2 ^ 31 → c * r * k < 2 ^ 31 →
      (c * r * k ≤ payload.length →
        s.readImages
            (some (be32 0x00000803 ++ (be32 c ++ (be32 r ++ (be32 k ++ payload))))) =
          ({ s with
              count := (c : Int),
              rows := (r : Int),
              cols := (k : Int),
              matrix := payload.take (c * r * k) }, none) ∧
        (payload.take (c * r * k)).length = c * r * k) ∧
      (payload.length < c * r * k →
        (s.readImages
            (some (be32 0x00000803 ++ (be32 c ++ (be32 r ++ (be32 k ++ payload)))))).2 =
          some .truncated) := by
  intro s c r k payload hc hr hk hp
  have hc32 : c < 2 ^ 32 := by omega
  have hr32 : r < 2 ^ 32 := by omega
  have hk32 : k < 2 ^ 32 := by omega
  have hcast : toInt32 c * toInt32 r * toInt32 k = ((c * r * k : Nat) : Int) := by
    rw [toInt32_small hc, toInt32_small hr, toInt32_small hk]
    push_cast
    ring
  have hn : wrap32 (wrap32 (toInt32 c * toInt32 r) * toInt32 k) = ((c * r * k : Nat) : Int) := by
    rw [wrap32_mul_left, hcast, wrap32_small (Int.natCast_nonneg _) (by exact_mod_cast hp)]
  constructor
  · intro hle
    refine ⟨readImages_shaped_ok s c r k payload hc hr hk hp hle, ?_⟩
    rw [List.length_take]
    omega
  · intro hlt
    rw [readImages_header s c r k payload hc32 hr32 hk32, hn,
      if_neg (by exact not_lt.mpr (Int.natCast_nonneg _)), Int.toNat_natCast,
      readFull_of_lt hlt]
    simp

theorem C3_payload_exact_witness :
    (Set.readImages {}
        (some (be32 0x00000803 ++ (be32 2 ++ (be32 1 ++ (be32 1 ++ [7, 8, 9]))))) =
      ({ count := 2, rows := 1, cols := 1, matrix := [7, 8] }, none)) ∧
    ((Set.readImages {}
        (some (be32 0x00000803 ++ (be32 2 ++ (be32 1 ++ (be32 1 ++ [7])))))).2 =
      some Err.truncated) :=
  ⟨((C3_payload_exact {} 2 1 1 [7, 8, 9] (by norm_num) (by norm_num) (by norm_num)
      (by norm_num)).1 (by norm_num)).1,
   (C3_payload_exact {} 2 1 1 [7] (by norm_num) (by norm_num) (by norm_num)
      (by norm_num)).2 (by norm_num)⟩

/-- C9 (amended): the pixel buffer size `count*rows*cols` is computed in
signed 32-bit arithmetic before allocation; for headers whose mathematical
product exceeds the `int32` range, the length handed to `make` is the
product reduced modulo `2^32` (signed interpretation).  When that reduced
value is non-negative, the allocated pixel storage has exactly that length
— congruent to, but different from, the mathematical product — and when it
is negative, `make` panics and no storage is allocated. -/
theorem readImages_shaped_matrix_length (s : Set) (c r k : Nat) (payload : List Nat)
    (hc : c < 2 ^ 31) (hr : r < 2 ^ 31) (hk : k < 2 ^ 31)
    (hpos : 0 ≤ wrap32 ((c : Int) * (r : Int) * (k : Int))) :
    (s.readImages
        (some (be32 0x00000803 ++ (be32 c ++ (be32 r ++ (be32 k ++ payload)))))).1.matrix.length
      = (wrap32 ((c : Int) * (r : Int) * (k : Int))).toNat := by
  have hc32 : c < 2 ^ 32 := by omega
  have hr32 : r < 2 ^ 32 := by omega
  have hk32 : k < 2 ^ 32 := by omega
  have hn : wrap32 (wrap32 (toInt32 c * toInt32 r) * toInt32 k)
      = wrap32 ((c : Int) * (r : Int) * (k : Int)) := by
    rw [wrap32_mul_left, toInt32_small hc, toInt32_small hr, toInt32_small hk]
  rcases Nat.lt_or_ge payload.length
      (wrap32 ((c : Int) * (r : Int) * (k : Int))).toNat with hlen | hlen
  · rw [readImages_header s c r k payload hc32 hr32 hk32, hn,
      if_neg (not_lt.mpr hpos), readFull_of_lt hlen]
    simp only [List.length_append, List.length_replicate]
    omega
  · rw [readImages_header s c r k payload hc32 hr32 hk32, hn,
      if_neg (not_lt.mpr hpos), readFull_of_le hlen]
    simp only [List.length_take]
    omega

/-- C9 (amended): the pixel buffer size `count*rows*cols` is computed in
signed 32-bit arithmetic before allocation; for headers whose mathematical
product exceeds the `int32` range, the length handed to `make` is the
product reduced modulo `2^32` (signed interpretation).  When that reduced
value is non-negative, the allocated pixel storage has exactly that length
— congruent to, but different from, the mathematical product — and when it
is negative, `make` panics and no storage is allocated. -/
theorem C9_overflow_wrap :
    ∀ (s : Set) (c r k : Nat) (payload : List Nat),
      c < 2 ^ 31 → r < 2 ^ 31 → k < 2 ^ 31 →
      2 ^ 31 ≤ c * r * k →
      (0 ≤ wrap32 ((c : Int) * (r : Int) * (k : Int)) →
        (((s.readImages
            (some (be32 0x00000803 ++ (be32 c ++ (be32 r ++ (be32 k ++ payload)))))).1.matrix.length : Int)
            = wrap32 ((c : Int) * (r : Int) * (k : Int)) ∧
         (2 ^ 32 : Int) ∣
           (((s.readImages
            (some (be32 0x00000803 ++ (be32 c ++ (be32 r ++ (be32 k ++ payload)))))).1.matrix.length : Int)
            - (c : Int) * (r : Int) * (k : Int)) ∧
         (((s.readImages
            (some (be32 0x00000803 ++ (be32 c ++ (be32 r ++ (be32 k ++ payload)))))).1.matrix.length : Int)
            ≠ (c : Int) * (r : Int) * (k : Int)))) ∧
      (wrap32 ((c : Int) * (r : Int) * (k : Int)) < 0 →
        s.readImages
            (some (be32 0x00000803 ++ (be32 c ++ (be32 r ++ (be32 k ++ payload))))) =
          ({ s with
              count := (c : Int),
              rows := (r : Int),
              cols := (k : Int) }, some .negativeMake)) := by
  intro s c r k payload hc hr hk hp
  have hc32 : c < 2 ^ 32 := by omega
  have hr32 : r < 2 ^ 32 := by omega
  have hk32 : k < 2 ^ 32 := by omega
  have hn : wrap32 (wrap32 (toInt32 c * toInt32 r) * toInt32 k)
      = wrap32 ((c : Int) * (r : Int) * (k : Int)) := by
    rw [wrap32_mul_left, toInt32_small hc, toInt32_small hr, toInt32_small hk]
  constructor
  · intro hpos
    have hL := readImages_shaped_matrix_length s c r k payload hc hr hk hpos
    constructor
    · rw [hL, Int.toNat_of_nonneg hpos]
    constructor
    · rw [hL, Int.toNat_of_nonneg hpos]
      exact wrap32_sub_dvd _
    · rw [hL, Int.toNat_of_nonneg hpos]
      intro heq
      have hlt := wrap32_lt ((c : Int) * (r : Int) * (k : Int))
      have hge : ((2 ^ 31 : Nat) : Int) ≤ ((c * r * k : Nat) : Int) := Nat.cast_le.mpr hp
      push_cast at hge
      omega
  · intro hneg
    rw [readImages_header s c r k payload hc32 hr32 hk32, hn, if_pos hneg,
      toInt32_small hc, toInt32_small hr, toInt32_small hk]

theorem C9_overflow_wrap_witness :
    (((Set.readImages {}
        (some (be32 0x00000803 ++ (be32 65536 ++ (be32 65536 ++ (be32 1 ++ [7])))))).1.matrix.length : Int)
        = wrap32 (((65536 : Nat) : Int) * ((65536 : Nat) : Int) * ((1 : Nat) : Int))) ∧
    Set.readImages {}
        (some (be32 0x00000803 ++ (be32 32768 ++ (be32 65536 ++ (be32 1 ++ []))))) =
      ({
         count := ((32768 : Nat) : Int),
         rows := ((65536 : Nat) : Int),
         cols := ((1 : Nat) : Int) }, some Err.negativeMake) :=
  ⟨((C9_overflow_wrap {} 65536 65536 1 [7] (by norm_num) (by norm_num) (by norm_num)
      (by norm_num)).1 (by decide)).1,
   (C9_overflow_wrap {} 32768 65536 1 [] (by norm_num) (by norm_num) (by norm_num)
      (by norm_num)).2 (by decide)⟩

theorem C9_counterexample :
    Set.readImages {}
        (some (be32 0x00000803 ++ (be32 32768 ++ (be32 65536 ++ (be32 1 ++ []))))) =
      ({ count := 32768, rows := 65536, cols := 1 }, some Err.negativeMake) ∧
    ¬ (((Set.readImages {}
        (some (be32 0x00000803 ++ (be32 32768 ++ (be32 65536 ++ (be32 1 ++ [])))))).1.matrix.length
          : Int)
        = wrap32 ((32768 : Int) * 65536 * 1)) := by
  decide

/-- C6: for a fully populated (invariant-satisfying) dataset and every
index `i` with `0 ≤ i < count`, `Index i` returns the `i`-th label byte
together with an image view of exactly `rows*cols` bytes spanning positions
`[i*rows*cols, (i+1)*rows*cols)` of the backing pixel storage, and
concatenating the image views of `Index 0 .. Index (count-1)` reproduces
the raw pixel payload exactly. -/
theorem C6_index_roundtrip :
    ∀ (s : Set), s.WellFormed →
      (∀ i, i < s.count.toNat →
        (∀ hi : i < s.labels.length, (s.Index i).1 = s.labels.get ⟨i, hi⟩) ∧
        (s.Index i).2.length = s.rows.toNat * s.cols.toNat ∧
        (s.Index i).2 = (s.matrix.drop (i * (s.rows.toNat * s.cols.toNat))).take
            (s.rows.toNat * s.cols.toNat)) ∧
      ((List.range s.count.toNat).flatMap fun i => (s.Index i).2) = s.matrix := by
  intro s hwf
  have hst := stride_of_wellFormed hwf
  obtain ⟨hc0, hr0, hk0, hrc, hm, hl⟩ := hwf
  set rc := s.rows.toNat * s.cols.toNat with hrc_def
  have hidx2 : ∀ i : Nat, (s.Index i).2 = (s.matrix.drop (i * rc)).take rc := by
    intro i
    show goSlice s.matrix (i * s.stride.toNat) ((i + 1) * s.stride.toNat)
        = (s.matrix.drop (i * rc)).take rc
    unfold goSlice
    rw [hst]
    congr 1
    have hsm : (i + 1) * rc = i * rc + rc := by ring
    omega
  constructor
  · intro i hi
    constructor
    · intro hilen
      show s.labels.getD i 0 = s.labels.get ⟨i, hilen⟩
      rw [List.getD_eq_get]
    constructor
    · rw [hidx2 i, List.length_take, List.length_drop, hm]
      have h1 : (i + 1) * rc ≤ s.count.toNat * rc := Nat.mul_le_mul_right rc hi
      have h2 : (i + 1) * rc = i * rc + rc := by ring
      omega
    · exact hidx2 i
  · have hEq : (fun i => (s.Index i).2) = fun i => (s.matrix.drop (i * rc)).take rc :=
      funext hidx2
    rw [hEq]
    exact flatMap_chunks rc s.count.toNat s.matrix hm

theorem C6_index_roundtrip_witness :
    (({ count := 2, rows := 1, cols := 1, matrix := [16, 32], labels := [5, 9] } : Set).Index 0).2.length
      = ({ count := 2, rows := 1, cols := 1, matrix := [16, 32], labels := [5, 9] } : Set).rows.toNat
        * ({ count := 2, rows := 1, cols := 1, matrix := [16, 32], labels := [5, 9] } : Set).cols.toNat ∧
    ((List.range
        ({ count := 2, rows := 1, cols := 1, matrix := [16, 32], labels := [5, 9] } : Set).count.toNat).flatMap
      fun i => (({ count := 2, rows := 1, cols := 1, matrix := [16, 32], labels := [5, 9] } : Set).Index i).2)
      = ({ count := 2, rows := 1, cols := 1, matrix := [16, 32], labels := [5, 9] } : Set).matrix :=
  ⟨((C6_index_roundtrip _
      (by exact ⟨by decide, by decide, by decide, by decide, by decide, by decide⟩)).1 0
      (by decide)).2.1,
   (C6_index_roundtrip _
      (by exact ⟨by decide, by decide, by decide, by decide, by decide, by decide⟩)).2⟩

theorem C5_count_mismatch_witness :
    Set.readLabels { count := 2 } (some (be32 0x00000801 ++ (be32 3 ++ []))) =
      ({ count := 2 }, some Err.countMismatch) ∧
    Set.read {} (some [0x00, 0x00, 0x08, 0x03, 0x00, 0x00, 0x00, 0x02,
        0x00, 0x00, 0x00, 0x01, 0x00, 0x00, 0x00, 0x01, 0x10, 0x20])
      (some (be32 0x00000801 ++ (be32 3 ++ []))) =
      ({ count := 2, rows := 1, cols := 1, matrix := [0x10, 0x20] },
       some Err.countMismatch) :=
  ⟨C5_count_mismatch.1 { count := 2 } 3 [] (by norm_num) (by decide),
   C5_count_mismatch.2 {} { count := 2, rows := 1, cols := 1, matrix := [0x10, 0x20] }
     (some [0x00, 0x00, 0x08, 0x03, 0x00, 0x00, 0x00, 0x02,
        0x00, 0x00, 0x00, 0x01, 0x00, 0x00, 0x00, 0x01, 0x10, 0x20])
     3 [] (by norm_num) (by decide) (by decide)⟩

/-- C7 (amended): in a successfully decoded dataset the label bytes are
exactly the first `count` bytes of the label file's payload — the decoder
copies them verbatim and performs no range check — so they are bounded by
255 whenever the input bytes are, and they lie in [0,9] precisely when the
input payload bytes used do; pixel bytes are likewise bounded by the input
stream's bytes.  (A payload byte outside [0,9] is accepted: see the
counterexample.) -/
theorem C7_ranges :
    (∀ (s : Set) (c : Nat) (payload : List Nat),
      c < 2 ^ 31 → ((c : Nat) : Int) = s.count → s.count.toNat ≤ payload.length →
      s.readLabels (some (be32 0x00000801 ++ (be32 c ++ payload))) =
        ({ s with labels := payload.take s.count.toNat }, none) ∧
      ((∀ b ∈ payload, b ≤ 255) → ∀ b ∈ payload.take s.count.toNat, b ≤ 255)) ∧
    (∀ (s : Set) (c r k : Nat) (payload : List Nat),
      c < 2 ^ 31 → r < 2 ^ 31 → k < 2 ^ 31 → c * r * k < 2 ^ 31 →
      c * r * k ≤ payload.length →
      (∀ b ∈ payload, b ≤ 255) →
      ∀ b ∈ (s.readImages
          (some (be32 0x00000803 ++ (be32 c ++ (be32 r ++ (be32 k ++ payload)))))).1.matrix,
        b ≤ 255) := by
  constructor
  · intro s c payload hc hcs hlen
    constructor
    · have hc32 : c < 2 ^ 32 := by omega
      rw [readLabels_header s c payload hc32, toInt32_small hc, hcs,
        if_neg (show ¬ s.count ≠ s.count from fun h => h rfl),
        if_neg (show ¬ s.count < 0 from not_lt.mpr (by rw [← hcs]; exact Int.natCast_nonneg c)),
        readFull_of_le hlen]
      simp
    · intro hb b hbmem
      exact hb b (List.take_subset _ _ hbmem)
  · intro s c r k payload hc hr hk hp hlen hb b hbmem
    rw [readImages_shaped_ok s c r k payload hc hr hk hp hlen] at hbmem
    exact hb b (List.take_subset _ _ hbmem)

theorem C7_ranges_witness :
    Set.readLabels { count := 1 } (some (be32 0x00000801 ++ (be32 1 ++ [4]))) =
      ({ count := 1, labels := [4] }, none) ∧
    (16 : Nat) ≤ 255 :=
  ⟨(C7_ranges.1 { count := 1 } 1 [4] (by norm_num) (by decide) (by decide)).1,
   C7_ranges.2 {} 1 1 1 [16] (by norm_num) (by norm_num) (by norm_num) (by norm_num)
     (by norm_num) (by decide) 16 (by decide)⟩

theorem C7_counterexample :
    Set.read {} (some [0x00, 0x00, 0x08, 0x03, 0x00, 0x00, 0x00, 0x01,
        0x00, 0x00, 0x00, 0x01, 0x00, 0x00, 0x00, 0x01, 0x07])
      (some [0x00, 0x00, 0x08, 0x01, 0x00, 0x00, 0x00, 0x01, 0x0A]) =
      ({ count := 1, rows := 1, cols := 1, matrix := [0x07], labels := [0x0A] }, none) ∧
    ¬ (∀ b ∈ (Set.read {} (some [0x00, 0x00, 0x08, 0x03, 0x00, 0x00, 0x00, 0x01,
        0x00, 0x00, 0x00, 0x01, 0x00, 0x00, 0x00, 0x01, 0x07])
      (some [0x00, 0x00, 0x08, 0x01, 0x00, 0x00, 0x00, 0x01, 0x0A])).1.labels, b ≤ 9) := by
  decide

/-- C10 (amended): the per-dataset `read` is not atomic on error.
`readLabels` never touches the image fields, so after `readImages`
succeeds and `readLabels` fails the image fields keep the newly decoded
data; the labels field keeps its previous value for every failure at or
before the count check (I/O error, bad magic, short header, count
mismatch), but on a truncated label payload the labels field has already
been reassigned to the freshly allocated `count`-byte buffer (partially
filled, zero-padded). -/
theorem C10_read_not_atomic :
    (∀ (s : Set) (stream : Option (List Nat)),
      (s.readLabels stream).1.count = s.count ∧
      (s.readLabels stream).1.rows = s.rows ∧
      (s.readLabels stream).1.cols = s.cols ∧
      (s.readLabels stream).1.matrix = s.matrix) ∧
    (∀ (s s2 : Set) (stream : Option (List Nat)) (e : Err),
      s.readLabels stream = (s2, some e) → e ≠ .truncated → s2.labels = s.labels) ∧
    (∀ (s s2 : Set) (stream : Option (List Nat)),
      s.readLabels stream = (s2, some .truncated) → s2.labels.length = s.count.toNat) ∧
    (∀ (s s1 : Set) (imgStream labStream : Option (List Nat)),
      s.readImages imgStream = (s1, none) →
      s.read imgStream labStream = s1.readLabels labStream) := by
  refine ⟨?_, ?_, ?_, fun s s1 i l h => read_of_images_ok h⟩
  · intro s stream
    unfold Set.readLabels
    repeat' split
    all_goals simp
  · intro s s2 stream e h hne
    unfold Set.readLabels at h
    repeat' split at h
    all_goals injection h with h1 h2
    all_goals try split at h2
    all_goals first
      | (injection h2
         done)
      | (injection h2 with h3
         exact absurd h3.symm hne)
      | rw [← h1]
  · intro s s2 stream h
    unfold Set.readLabels at h
    repeat' split at h
    all_goals injection h with h1 h2
    all_goals try split at h2
    all_goals first
      | (injection h2
         done)
      | (injection h2 with h3
         simp at h3
         all_goals done)
      | (rw [← h1]
         rw [show ∀ (X : List Nat), ({ s with labels := X } : Set).labels = X from
           fun _ => rfl]
         exact readFull_fst_length _ _)

theorem C10_read_not_atomic_witness :
    ({ count := 2, labels := [5, 0] } : Set).labels.length
      = ({ count := 2 } : Set).count.toNat ∧
    Set.read {} (some [0x00, 0x00, 0x08, 0x03, 0x00, 0x00, 0x00, 0x02,
        0x00, 0x00, 0x00, 0x01, 0x00, 0x00, 0x00, 0x01, 0x10, 0x20])
      (some [0x00, 0x00, 0x08, 0x01, 0x00, 0x00, 0x00, 0x03]) =
      Set.readLabels { count := 2, rows := 1, cols := 1, matrix := [0x10, 0x20] }
        (some [0x00, 0x00, 0x08, 0x01, 0x00, 0x00, 0x00, 0x03]) :=
  ⟨C10_read_not_atomic.2.2.1 { count := 2 } { count := 2, labels := [5, 0] }
     (some (be32 0x00000801 ++ (be32 2 ++ [5]))) (by decide),
   C10_read_not_atomic.2.2.2 {} { count := 2, rows := 1, cols := 1, matrix := [0x10, 0x20] }
     (some [0x00, 0x00, 0x08, 0x03, 0x00, 0x00, 0x00, 0x02,
        0x00, 0x00, 0x00, 0x01, 0x00, 0x00, 0x00, 0x01, 0x10, 0x20])
     (some [0x00, 0x00, 0x08, 0x01, 0x00, 0x00, 0x00, 0x03]) (by decide)⟩

theorem C10_counterexample :
    Set.read {} (some [0x00, 0x00, 0x08, 0x03, 0x00, 0x00, 0x00, 0x02,
        0x00, 0x00, 0x00, 0x01, 0x00, 0x00, 0x00, 0x01, 0x10, 0x20])
      (some [0x00, 0x00, 0x08, 0x01, 0x00, 0x00, 0x00, 0x02, 0x05]) =
      ({ count := 2, rows := 1, cols := 1, matrix := [0x10, 0x20], labels := [5, 0] },
       some Err.truncated) ∧
    (Set.read {} (some [0x00, 0x00, 0x08, 0x03, 0x00, 0x00, 0x00, 0x02,
        0x00, 0x00, 0x00, 0x01, 0x00, 0x00, 0x00, 0x01, 0x10, 0x20])
      (some [0x00, 0x00, 0x08, 0x01, 0x00, 0x00, 0x00, 0x02, 0x05])).1.labels
      ≠ ({} : Set).labels := by
  decide

theorem lowerAscii_hexDigit_lt : ∀ k, k < 16 → lowerAscii (hexDigit k) = hexDigit k := by
  decide

theorem map_lowerAscii_hexLower (bs : List Nat) (h : ∀ b ∈ bs, b < 256) :
    List.map lowerAscii (hexLower bs) = hexLower bs := by
  induction bs with
  | nil => rfl
  | cons b t ih =>
    have hb : b < 256 := h b (by simp)
    have ht : ∀ x ∈ t, x < 256 := fun x hx => h x (by simp [hx])
    show List.map lowerAscii ((b :: t).flatMap byteHex) = (b :: t).flatMap byteHex
    rw [List.flatMap_cons, List.map_append]
    have hih : List.map lowerAscii (t.flatMap byteHex) = t.flatMap byteHex := ih ht
    rw [hih]
    congr 1
    show List.map lowerAscii [hexDigit (b / 16), hexDigit (b % 16)]
        = [hexDigit (b / 16), hexDigit (b % 16)]
    rw [List.map_cons, List.map_cons, List.map_nil,
      lowerAscii_hexDigit_lt (b / 16) (by omega),
      lowerAscii_hexDigit_lt (b % 16) (by omega)]

/-- C1 (amended): the cache check keeps the file (skips the download)
exactly when `os.Open` and `Stat` succeed, the stat size and the copied
byte count both equal the expected length, and the lowercase hex MD5
digest equals the table entry; a failed open, a failed stat, a wrong size
or a wrong hash fall through to the download (invalid).  But an I/O error
while reading the content for hashing is passed to `isNil` and is fatal
(process exit), not treated as invalid.  Since the table's hashes are
lowercase, the code's exact comparison of the lowercase rendering agrees
with case-insensitive hex comparison. -/
theorem C1_cache_check :
    ∀ (digest : List Nat → List Nat) (len : Int) (expected : List Nat),
      (∀ fs : FileState, fs.openOk = false →
        checkCache digest fs len expected = .invalid) ∧
      (∀ fs : FileState, fs.statOk = false →
        checkCache digest fs len expected = .invalid) ∧
      (∀ fs : FileState, fs.size ≠ len →
        checkCache digest fs len expected = .invalid) ∧
      (∀ fs : FileState, fs.openOk = true → fs.statOk = true → fs.size = len →
        fs.content = none → checkCache digest fs len expected = .fatal) ∧
      (∀ (fs : FileState) (c : List Nat), fs.openOk = true → fs.statOk = true →
        fs.size = len → fs.content = some c →
        (checkCache digest fs len expected = .valid ↔
          ((c.length : Int) = len ∧ hexLower (digest c) = expected))) ∧
      (∀ (fs : FileState) (c : List Nat), fs.openOk = true → fs.statOk = true →
        fs.size = len → fs.content = some c →
        ((c.length : Int) ≠ len ∨ hexLower (digest c) ≠ expected) →
        checkCache digest fs len expected = .invalid) ∧
      (∀ c : List Nat, (∀ b ∈ digest c, b < 256) →
        List.map lowerAscii expected = expected →
        (hexLower (digest c) = expected ↔
          List.map lowerAscii (hexLower (digest c)) = List.map lowerAscii expected)) := by
  intro digest len expected
  refine ⟨?_, ?_, ?_, ?_, ?_, ?_, ?_⟩
  · intro fs h
    unfold checkCache
    rw [h]
    simp
  · intro fs h
    unfold checkCache
    rw [h]
    simp
  · intro fs h
    unfold checkCache
    simp [h]
  · intro fs h1 h2 h3 h4
    unfold checkCache
    rw [h1, h2, h3, h4]
    simp
  · intro fs c h1 h2 h3 h4
    unfold checkCache
    rw [h1, h2, h3, h4]
    by_cases hcond : ((c.length : Int) = len ∧ hexLower (digest c) = expected)
    · simp [hcond]
    · simp [hcond]
  · intro fs c h1 h2 h3 h4 hd
    unfold checkCache
    rw [h1, h2, h3, h4]
    have hnc : ¬((c.length : Int) = len ∧ hexLower (digest c) = expected) := by
      rcases hd with h | h
      · exact fun hand => h hand.1
      · exact fun hand => h hand.2
    simp [hnc]
  · intro c hb hexp
    constructor
    · intro he
      rw [he]
    · intro he
      rw [map_lowerAscii_hexLower (digest c) hb, hexp] at he
      exact he

theorem C1_cache_check_witness :
    checkCache (fun _ => List.replicate 16 0) ⟨false, true, 5, none⟩ 5 [] =
      CheckOutcome.invalid ∧
    checkCache (fun _ => List.replicate 16 0) ⟨true, true, 0, some []⟩ 0
        (hexLower (List.replicate 16 0)) = CheckOutcome.valid :=
  ⟨(C1_cache_check (fun _ => List.replicate 16 0) 5 []).1 ⟨false, true, 5, none⟩ rfl,
   ((C1_cache_check (fun _ => List.replicate 16 0) 0
        (hexLower (List.replicate 16 0))).2.2.2.2.1
      ⟨true, true, 0, some []⟩ [] rfl rfl rfl rfl).2 ⟨rfl, rfl⟩⟩

theorem C1_counterexample :
    checkCache (fun _ => List.replicate 16 0) ⟨true, true, 4, none⟩ 4 [] =
      CheckOutcome.fatal ∧
    CheckOutcome.fatal ≠ CheckOutcome.invalid :=
  ⟨rfl, by decide⟩

/-- C2 (amended): the download step fails fatally on a `cl.Get` transport
error, and with the length-mismatch error exactly when the number of body
bytes copied to the file differs from the expected length; the HTTP status
code is never examined, so a non-success status with a body of the right
length is accepted as success; an `os.Create` failure and a body-read
error after a matching byte count are fatal through `isNil`; in every
remaining case the fetch succeeds. -/
theorem C2_fetch :
    ∀ (len : Int),
      (∀ createOk : Bool, fetch none createOk len = .transportFatal) ∧
      (∀ r : HttpResponse, fetch (some r) false len = .createFatal) ∧
      (∀ r : HttpResponse, (r.body.length : Int) ≠ len →
        fetch (some r) true len = .lengthMismatch r.body.length len) ∧
      (∀ r : HttpResponse, (r.body.length : Int) = len → r.bodyErr = true →
        fetch (some r) true len = .copyFatal) ∧
      (∀ r : HttpResponse, (r.body.length : Int) = len → r.bodyErr = false →
        fetch (some r) true len = .success) ∧
      (∀ (r : HttpResponse) (st : Int) (createOk : Bool),
        fetch (some { r with status := st }) createOk len =
          fetch (some r) createOk len) := by
  intro len
  refine ⟨?_, ?_, ?_, ?_, ?_, ?_⟩
  · intro co
    rfl
  · intro r
    rfl
  · intro r h
    unfold fetch
    simp [h]
  · intro r h hb
    unfold fetch
    simp [h, hb]
  · intro r h hb
    unfold fetch
    simp [h, hb]
  · intro r st co
    rfl

theorem C2_fetch_witness :
    fetch none true 7 = FetchOutcome.transportFatal ∧
    fetch (some ⟨200, [1], false⟩) true 1 = FetchOutcome.success ∧
    fetch (some ⟨200, [1, 2], true⟩) true 9 = FetchOutcome.lengthMismatch 2 9 :=
  ⟨(C2_fetch 7).1 true,
   (C2_fetch 1).2.2.2.2.1 ⟨200, [1], false⟩ (by decide) rfl,
   (C2_fetch 9).2.2.1 ⟨200, [1, 2], true⟩ (by decide)⟩

theorem C2_counterexample :
    fetch (some ⟨404, [9, 9], false⟩) true 2 = FetchOutcome.success ∧
    FetchOutcome.success ≠ FetchOutcome.transportFatal :=
  ⟨rfl, by decide⟩

end Mnist

